import Mathlib

/-!
Shallow embedding of the permutation-importance feature-selection procedure
from `11-Hybrid-methods/11.1-Feature-shuffling.ipynb`.

The notebook runs two structurally identical loops (classification with
roc-auc, regression with rmse): compute a baseline score, then for each
feature column build a copy of the training matrix, replace that one column
by a row-shuffle of its own values obtained with a fixed random state
(`sample(frac=1, random_state=10)` resp. `11` followed by
`reset_index(drop=True)`), predict on the copy, score, and record
`drift = baseline_score - shuffled_score`.  The drift list is then indexed
by the column names, and features are selected by plain boolean filtering
(`feature_importance[feature_importance > 0].index` for the classification
case).  The model and the metric are opaque external collaborators; here
they are parameters of the embedding.

Values and scores are integers (signed numbers with exact arithmetic); a feature matrix is an ordered list of
named columns.
-/

namespace FeatureShuffling

/-- A column of numeric values. -/
abbrev Col := List ℤ

/-- A feature matrix: ordered, named columns (the dataframe of the source). -/
abbrev DataMatrix := List (String × Col)

/-- A model exposed only through prediction, and a scorer mapping
(target, predictions) to a score, as in the source. -/
abbrev Predictor := DataMatrix → List ℤ

abbrev Scorer := List ℤ → List ℤ → ℤ

/-- One step of the pseudo-random stream backing the row shuffle.
The source delegates the shuffle to the external library call
`sample(frac=1, random_state=seed)`; the library stream is modelled by a
linear congruential generator.  All the claims need from it is that it is a
deterministic function of the seed. -/
def lcgNext (s : Nat) : Nat :=
  (s * 1103515245 + 12345) % 2 ^ 31

/-- Fuel-indexed sampler without replacement: at each step one remaining
row is drawn by the pseudo-random stream and appended.  With enough fuel
(the list length) every row is drawn. -/
def shuffleFuel (fuel s : Nat) (l : List ℤ) : List ℤ :=
  match fuel, l with
  | 0, l => l
  | _ + 1, [] => []
  | fuel + 1, x :: xs =>
    let r := s % (x :: xs).length
    (x :: xs).getD r 0 ::
      shuffleFuel fuel (lcgNext s) ((x :: xs).take r ++ (x :: xs).drop (r + 1))

/-- Row shuffle of a single column, modelling the external library call
`sample(frac=1, random_state=seed).reset_index(drop=True)` of the source:
a sample of all rows without replacement, i.e. a seed-determined
permutation of the values of the column, realigned positionally. -/
def shuffle (s : Nat) (l : List ℤ) : List ℤ :=
  shuffleFuel l.length s l

/-- The working copy built for feature `f`: the source copies the
dataframe and reassigns the single column `f` to its shuffled values
(`X_train_c = X_train.copy(); X_train_c[feature] = ...sample(frac=1,...)`). -/
def workingCopy (seed : Nat) (m : DataMatrix) (f : String) : DataMatrix :=
  m.map fun c => if c.1 = f then (c.1, shuffle seed c.2) else c

/-- The shuffle loop of the source: baseline score on the intact matrix,
then one drift `baseline - shuffled` per feature column, in column order
(`performance_shift` list, then `feature_importance.index = X_train.columns`). -/
def evaluate (predict : Predictor) (m : DataMatrix) (y : List ℤ)
    (scorer : Scorer) (seed : Nat) : List (String × ℤ) :=
  let base := scorer y (predict m)
  m.map fun c =>
    (c.1, base - scorer y (predict (workingCopy seed m c.1)))

/-- The per-feature part of the loop, instrumented with a count of the
prediction calls it makes (one per feature). -/
def shuffleRun (predict : Predictor) (base : ℤ) (m : DataMatrix)
    (y : List ℤ) (scorer : Scorer) (seed : Nat) :
    List (String × Col) → List (String × ℤ) × Nat
  | [] => ([], 0)
  | c :: rest =>
    let r := shuffleRun predict base m y scorer seed rest
    ((c.1, base - scorer y (predict (workingCopy seed m c.1))) :: r.1,
      r.2 + 1)

/-- `evaluate` together with the number of prediction calls performed:
one baseline call plus one call per feature. -/
def evaluateTrace (predict : Predictor) (m : DataMatrix) (y : List ℤ)
    (scorer : Scorer) (seed : Nat) : List (String × ℤ) × Nat :=
  let base := scorer y (predict m)
  let r := shuffleRun predict base m y scorer seed m
  (r.1, r.2 + 1)

/-- Feature selection of the source, classification branch:
`selected_features = feature_importance[feature_importance > threshold].index`.
Boolean filtering of a series keeps the original index order. -/
def select (r : List (String × ℤ)) (t : ℤ) : List String :=
  (r.filter fun e => t < e.2).map Prod.fst

/-- Row count of the matrix: length of its first column (0 when empty). -/
def nRows (m : DataMatrix) : Nat :=
  match m with
  | [] => 0
  | c :: _ => c.2.length

/-- Orientation of the metric as described by the specification.  The
source notebook has no such parameter; the type is declared to state the
specification side of the refinement claims. -/
inductive ScorerDirection
  | higherIsBetter
  | lowerIsBetter
deriving DecidableEq

/-- The evaluation loop as worded by the specification, for comparison
with `evaluate`, the loop of the source: the raw delta
`baseline - shuffled` is negated when the metric is lower-is-better. -/
def evaluateSpec (predict : Predictor) (m : DataMatrix) (y : List ℤ)
    (scorer : Scorer) (dir : ScorerDirection) (seed : Nat) :
    List (String × ℤ) :=
  let base := scorer y (predict m)
  m.map fun c =>
    let raw := base - scorer y (predict (workingCopy seed m c.1))
    (c.1, if dir = ScorerDirection.lowerIsBetter then -raw else raw)

/-- Stable insertion into a drift-descending list: the inserted entry goes
in front of any later entry with the same drift. -/
def insertDesc (e : String × ℤ) : List (String × ℤ) → List (String × ℤ)
  | [] => [e]
  | x :: xs => if x.2 ≤ e.2 then e :: x :: xs else x :: insertDesc e xs

/-- Stable sort by descending drift (ties keep the original order). -/
def sortDesc : List (String × ℤ) → List (String × ℤ)
  | [] => []
  | x :: xs => insertDesc x (sortDesc xs)

/-- Selection as worded by the specification, for comparison with
`select`, the selection of the source: entries whose drift strictly
exceeds the threshold, ordered by descending drift, ties broken by the
original column order. -/
def selectSpec (r : List (String × ℤ)) (t : ℤ) : List String :=
  (sortDesc (r.filter fun e => t < e.2)).map Prod.fst

/-- The fuel-indexed sampler always returns a permutation of its input. -/
theorem shuffleFuel_perm (fuel : Nat) :
    ∀ (s : Nat) (l : List ℤ), (shuffleFuel fuel s l).Perm l := by
  induction fuel with
  | zero => intro s l; exact List.Perm.refl l
  | succ fuel ih =>
    intro s l
    match l with
    | [] => exact List.Perm.refl []
    | x :: xs =>
      rw [shuffleFuel]
      have hr' : s % (x :: xs).length < (x :: xs).length :=
        Nat.mod_lt _ (by simp)
      set r := s % (x :: xs).length with hrdef
      have ihp := ih (lcgNext s)
        ((x :: xs).take r ++ (x :: xs).drop (r + 1))
      have hgetD : (x :: xs).getD r 0 = (x :: xs).get ⟨r, hr'⟩ := by
        simp [List.getD_eq_getElem?_getD, List.getElem?_eq_getElem hr']
      have hsplit : (x :: xs) =
          (x :: xs).take r ++ (x :: xs).get ⟨r, hr'⟩ :: (x :: xs).drop (r + 1) := by
        conv_lhs => rw [← List.take_append_drop r (x :: xs)]
        congr 1
        exact (List.drop_eq_getElem_cons hr').trans rfl
      refine (ihp.cons ((x :: xs).getD r 0)).trans ?_
      rw [hgetD]
      conv_rhs => rw [hsplit]
      exact List.perm_middle.symm

/-- The shuffled column is always a permutation of the original column. -/
theorem shuffle_perm (s : Nat) (l : List ℤ) : (shuffle s l).Perm l :=
  shuffleFuel_perm l.length s l

/-- Shuffling preserves the row count of a column. -/
theorem shuffle_length (s : Nat) (l : List ℤ) :
    (shuffle s l).length = l.length :=
  (shuffle_perm s l).length_eq

/-- Shuffling a constant column is a no-op. -/
theorem shuffle_const (s : Nat) (l : List ℤ) (v : ℤ)
    (h : ∀ x ∈ l, x = v) : shuffle s l = l := by
  have h1 : shuffle s l = List.replicate l.length v := by
    refine List.eq_replicate_iff.2 ⟨shuffle_length s l, ?_⟩
    intro b hb
    exact h b ((shuffle_perm s l).mem_iff.1 hb)
  have h2 : l = List.replicate l.length v :=
    List.eq_replicate_iff.2 ⟨rfl, h⟩
  rw [h1, ← h2]

/-- The working copy has as many columns as the original matrix. -/
theorem workingCopy_length (seed : Nat) (m : DataMatrix) (f : String) :
    (workingCopy seed m f).length = m.length := by
  simp [workingCopy]

/-- Pointwise description of the working copy: the column at position `i`
is shuffled exactly when its name is the feature under evaluation. -/
theorem workingCopy_get (seed : Nat) (m : DataMatrix) (f : String)
    (i : Nat) (hi : i < m.length) :
    (workingCopy seed m f).get ⟨i, (workingCopy_length seed m f).symm ▸ hi⟩ =
      if (m.get ⟨i, hi⟩).1 = f
      then ((m.get ⟨i, hi⟩).1, shuffle seed (m.get ⟨i, hi⟩).2)
      else m.get ⟨i, hi⟩ := by
  simp [workingCopy, List.getElem_map]

/-- When shuffling fixes the values of every column named `f`, the working
copy is the original matrix. -/
theorem workingCopy_eq_self (seed : Nat) (m : DataMatrix) (f : String)
    (h : ∀ c ∈ m, c.1 = f → shuffle seed c.2 = c.2) :
    workingCopy seed m f = m := by
  unfold workingCopy
  have : ∀ c ∈ m, (if c.1 = f then (c.1, shuffle seed c.2) else c) = id c := by
    intro c hc
    by_cases hcf : c.1 = f
    · rw [if_pos hcf, h c hc hcf]
      rfl
    · rw [if_neg hcf]
      rfl
  rw [List.map_congr_left this, List.map_id]

/-- The instrumented loop performs one prediction call per feature. -/
theorem shuffleRun_snd (predict : Predictor) (base : ℤ) (m : DataMatrix)
    (y : List ℤ) (scorer : Scorer) (seed : Nat) (cols : List (String × Col)) :
    (shuffleRun predict base m y scorer seed cols).2 = cols.length := by
  induction cols with
  | nil => rfl
  | cons c rest ih => simp [shuffleRun, ih]

/-- The instrumented loop computes the same drifts as the plain loop. -/
theorem shuffleRun_fst (predict : Predictor) (base : ℤ) (m : DataMatrix)
    (y : List ℤ) (scorer : Scorer) (seed : Nat) (cols : List (String × Col)) :
    (shuffleRun predict base m y scorer seed cols).1 =
      cols.map fun c =>
        (c.1, base - scorer y (predict (workingCopy seed m c.1))) := by
  induction cols with
  | nil => rfl
  | cons c rest ih => simp [shuffleRun, ih]

/-- The instrumented evaluation returns exactly the report of `evaluate`. -/
theorem evaluateTrace_fst (predict : Predictor) (m : DataMatrix) (y : List ℤ)
    (scorer : Scorer) (seed : Nat) :
    (evaluateTrace predict m y scorer seed).1 =
      evaluate predict m y scorer seed := by
  simp [evaluateTrace, evaluate, shuffleRun_fst]

/-- The instrumented evaluation counts one baseline prediction call plus
one per feature column. -/
theorem evaluateTrace_snd (predict : Predictor) (m : DataMatrix) (y : List ℤ)
    (scorer : Scorer) (seed : Nat) :
    (evaluateTrace predict m y scorer seed).2 = m.length + 1 := by
  simp [evaluateTrace, shuffleRun_snd]

/-- Every entry of the report arises from a column of the matrix, with
drift equal to baseline score minus score on the working copy. -/
theorem evaluate_mem {predict : Predictor} {m : DataMatrix} {y : List ℤ}
    {scorer : Scorer} {seed : Nat} {e : String × ℤ}
    (he : e ∈ evaluate predict m y scorer seed) :
    ∃ c ∈ m, e = (c.1, scorer y (predict m) -
      scorer y (predict (workingCopy seed m c.1))) := by
  simp only [evaluate, List.mem_map] at he
  obtain ⟨c, hc, rfl⟩ := he
  exact ⟨c, hc, rfl⟩

/-- Claim C1, counterexample: the source loop does not negate the raw
delta.  With a lower-is-better metric whose baseline score is 100 and
whose score after shuffling the only feature `z` is 150, the source
records drift −50, while the loop worded by the specification (negation
for lower-is-better) would record +50. -/
theorem evaluate_no_negation_counterexample :
    evaluate (fun m => (m.headD ("", [])).2) [("z", [1, 2])] [0, 0]
        (fun _ p => if p = [1, 2] then 100 else 150) 1 = [("z", -50)] ∧
      evaluateSpec (fun m => (m.headD ("", [])).2) [("z", [1, 2])] [0, 0]
        (fun _ p => if p = [1, 2] then 100 else 150)
        ScorerDirection.lowerIsBetter 1 = [("z", 50)] ∧
      (-50 : ℤ) ≠ 50 := by
  exact ⟨by decide, by decide, by decide⟩

/-- Claim C1, amended: the recorded drift of every feature is the raw
delta `baseline_score - shuffled_score`, with no direction-dependent
negation; in particular a feature whose shuffling strictly increases a
lower-is-better error metric receives a strictly negative recorded
drift. -/
theorem evaluate_drift_raw_delta (predict : Predictor) (m : DataMatrix)
    (y : List ℤ) (scorer : Scorer) (seed : Nat) (f : String) (d : ℤ)
    (hmem : (f, d) ∈ evaluate predict m y scorer seed)
    (hworse : scorer y (predict m) <
      scorer y (predict (workingCopy seed m f))) :
    d = scorer y (predict m) -
        scorer y (predict (workingCopy seed m f)) ∧ d < 0 := by
  obtain ⟨c, hc, heq⟩ := evaluate_mem hmem
  have hf : f = c.1 := congrArg Prod.fst heq
  have hd : d = scorer y (predict m) -
      scorer y (predict (workingCopy seed m c.1)) := congrArg Prod.snd heq
  subst hf
  exact ⟨hd, by rw [hd]; omega⟩

/-- Claim C1, witness: the amended statement at the scenario with
baseline 100 and shuffled score 150, where the recorded drift is −50. -/
theorem evaluate_drift_raw_delta_witness :
    ((-50 : ℤ) = (fun _ p => if p = [(1:ℤ), 2] then (100:ℤ) else 150) [0, 0]
        ((fun m : DataMatrix => (m.headD ("", [])).2) [("z", [1, 2])]) -
      (fun _ p => if p = [(1:ℤ), 2] then (100:ℤ) else 150) [0, 0]
        ((fun m : DataMatrix => (m.headD ("", [])).2)
          (workingCopy 1 [("z", [1, 2])] "z")) ∧ (-50 : ℤ) < 0) :=
  evaluate_drift_raw_delta (fun m => (m.headD ("", [])).2) [("z", [1, 2])]
    [0, 0] (fun _ p => if p = [1, 2] then 100 else 150) 1 "z" (-50)
    (by decide) (by decide)

/-- Claim C2, counterexample: the source selection keeps the original
column order and does not sort by descending drift.  On the report
`[(a, 1), (b, 5)]` with threshold 0 the source returns `[a, b]`, while
the selection worded by the specification returns `[b, a]`. -/
theorem select_unsorted_counterexample :
    select [("a", 1), ("b", 5)] 0 = ["a", "b"] ∧
      selectSpec [("a", 1), ("b", 5)] 0 = ["b", "a"] ∧
      select [("a", 1), ("b", 5)] 0 ≠ selectSpec [("a", 1), ("b", 5)] 0 := by
  exact ⟨by decide, by decide, by decide⟩

/-- Claim C2, amended: for a report with distinct feature names,
`select` returns exactly the feature names whose drift strictly exceeds
the threshold, and the returned sequence preserves the original column
order of the report (it is a sublist of the report names). -/
theorem select_members_in_column_order (r : List (String × ℤ)) (t : ℤ)
    (hnd : (r.map Prod.fst).Nodup) :
    List.Sublist (select r t) (r.map Prod.fst) ∧
      ∀ e ∈ r, (e.1 ∈ select r t ↔ t < e.2) := by
  constructor
  · exact List.Sublist.map Prod.fst (List.filter_sublist r)
  · intro e he
    constructor
    · intro hmem
      simp only [select, List.mem_map, List.mem_filter] at hmem
      obtain ⟨e', ⟨he', hpass⟩, hfst⟩ := hmem
      have : e' = e := List.inj_on_of_nodup_map hnd he' he hfst
      subst this
      simpa using hpass
    · intro ht
      simp only [select, List.mem_map, List.mem_filter]
      exact ⟨e, ⟨he, by simpa using ht⟩, rfl⟩

/-- Claim C2, witness: the amended statement at the two-entry report. -/
theorem select_members_in_column_order_witness :
    List.Sublist (select [("a", 1), ("b", 5)] 0)
        ([("a", (1:ℤ)), ("b", 5)].map Prod.fst) ∧
      ∀ e ∈ [("a", (1:ℤ)), ("b", 5)],
        (e.1 ∈ select [("a", 1), ("b", 5)] 0 ↔ 0 < e.2) :=
  select_members_in_column_order [("a", 1), ("b", 5)] 0 (by decide)

/-- Claim C3: evaluation is deterministic — two calls with equal model,
matrix, target, scorer, and seed produce identical reports, and within
one call every feature column of the working copy is shuffled from the
one shared seed. -/
theorem evaluate_deterministic (p₁ p₂ : Predictor) (m₁ m₂ : DataMatrix)
    (y₁ y₂ : List ℤ) (s₁ s₂ : Scorer) (seed₁ seed₂ : Nat)
    (hp : p₁ = p₂) (hm : m₁ = m₂) (hy : y₁ = y₂) (hs : s₁ = s₂)
    (hseed : seed₁ = seed₂) :
    evaluate p₁ m₁ y₁ s₁ seed₁ = evaluate p₂ m₂ y₂ s₂ seed₂ ∧
      ∀ c ∈ m₁, (c.1, shuffle seed₁ c.2) ∈ workingCopy seed₁ m₁ c.1 := by
  subst hp hm hy hs hseed
  refine ⟨rfl, ?_⟩
  intro c hc
  have hmm := List.mem_map_of_mem
    (fun c' => if c'.1 = c.1 then (c'.1, shuffle seed₁ c'.2) else c') hc
  simpa [workingCopy] using hmm

/-- Claim C3, witness: determinism at a concrete model, matrix, target,
scorer, and seed. -/
theorem evaluate_deterministic_witness :
    evaluate (fun m => (m.headD ("", [])).2) [("a", [1, 2])] [0, 0]
        (fun _ p => p.headD 0) 7 =
      evaluate (fun m => (m.headD ("", [])).2) [("a", [1, 2])] [0, 0]
        (fun _ p => p.headD 0) 7 ∧
      ∀ c ∈ [("a", [(1:ℤ), 2])],
        (c.1, shuffle 7 c.2) ∈ workingCopy 7 [("a", [1, 2])] c.1 :=
  evaluate_deterministic (fun m => (m.headD ("", [])).2)
    (fun m => (m.headD ("", [])).2) [("a", [1, 2])] [("a", [1, 2])]
    [0, 0] [0, 0] (fun _ p => p.headD 0) (fun _ p => p.headD 0) 7 7
    rfl rfl rfl rfl rfl

/-- Claim C4: isolation — in the working copy built for feature `f`,
every column whose name differs from `f` holds exactly its original
values in the original row order.  The target vector is not part of the
working copy at all: the loop passes the original target unchanged to
every scorer call. -/
theorem workingCopy_frame (seed : Nat) (m : DataMatrix) (f : String)
    (i : Nat) (hi : i < m.length)
    (hne : (m.get ⟨i, hi⟩).1 ≠ f) :
    (workingCopy seed m f).get ⟨i, (workingCopy_length seed m f).symm ▸ hi⟩ =
      m.get ⟨i, hi⟩ := by
  rw [workingCopy_get seed m f i hi, if_neg hne]

/-- Claim C4, witness: the second column is untouched when the first is
shuffled. -/
theorem workingCopy_frame_witness :
    (workingCopy 1 [("a", [1, 2]), ("b", [3, 4])] "a").get
        ⟨1, (workingCopy_length 1 [("a", [1, 2]), ("b", [3, 4])] "a").symm ▸
          (by decide : 1 < ([("a", [(1:ℤ), 2]), ("b", [3, 4])]).length)⟩ =
      ([("a", [(1:ℤ), 2]), ("b", [3, 4])]).get ⟨1, by decide⟩ :=
  workingCopy_frame 1 [("a", [1, 2]), ("b", [3, 4])] "a" 1 (by decide)
    (by decide)

/-- Claim C5: every column of the working copy keeps its name and holds a
permutation of its own original values — the multiset of values is
preserved, so no value is invented, dropped, or drawn from another
column. -/
theorem workingCopy_column_perm (seed : Nat) (m : DataMatrix) (f : String)
    (i : Nat) (hi : i < m.length) :
    ((workingCopy seed m f).get
        ⟨i, (workingCopy_length seed m f).symm ▸ hi⟩).1 =
      (m.get ⟨i, hi⟩).1 ∧
      ((workingCopy seed m f).get
          ⟨i, (workingCopy_length seed m f).symm ▸ hi⟩).2.Perm
        (m.get ⟨i, hi⟩).2 := by
  rw [workingCopy_get seed m f i hi]
  by_cases h : (m.get ⟨i, hi⟩).1 = f
  · rw [if_pos h]
    exact ⟨rfl, shuffle_perm seed _⟩
  · rw [if_neg h]
    exact ⟨rfl, List.Perm.refl _⟩

/-- Claim C5, witness: the shuffled column at a concrete matrix is a
permutation of the original column. -/
theorem workingCopy_column_perm_witness :
    ((workingCopy 1 [("a", [1, 2])] "a").get
        ⟨0, (workingCopy_length 1 [("a", [1, 2])] "a").symm ▸
          (by decide : 0 < ([("a", [(1:ℤ), 2])]).length)⟩).1 =
      (([("a", [(1:ℤ), 2])]).get ⟨0, by decide⟩).1 ∧
      ((workingCopy 1 [("a", [1, 2])] "a").get
          ⟨0, (workingCopy_length 1 [("a", [1, 2])] "a").symm ▸
            (by decide : 0 < ([("a", [(1:ℤ), 2])]).length)⟩).2.Perm
        (([("a", [(1:ℤ), 2])]).get ⟨0, by decide⟩).2 :=
  workingCopy_column_perm 1 [("a", [1, 2])] "a" 0 (by decide)

/-- Claim C6: a feature whose column is constant records drift exactly 0
for every seed, because shuffling a constant column is a no-op and the
working copy then equals the original matrix. -/
theorem constant_column_drift_zero (predict : Predictor) (m : DataMatrix)
    (y : List ℤ) (scorer : Scorer) (seed : Nat) (f : String) (v : ℤ)
    (hconst : ∀ c ∈ m, c.1 = f → ∀ x ∈ c.2, x = v) (d : ℤ)
    (hd : (f, d) ∈ evaluate predict m y scorer seed) : d = 0 := by
  obtain ⟨c, hc, heq⟩ := evaluate_mem hd
  have hf : f = c.1 := congrArg Prod.fst heq
  have hdval : d = scorer y (predict m) -
      scorer y (predict (workingCopy seed m c.1)) := congrArg Prod.snd heq
  have hcopy : workingCopy seed m c.1 = m := by
    refine workingCopy_eq_self seed m c.1 ?_
    intro c' hc' hname
    exact shuffle_const seed c'.2 v (hconst c' hc' (hname.trans hf.symm))
  rw [hdval, hcopy, sub_self]

/-- Claim C6, witness: the constant column `y = [9, 9, 9]` records drift
0 at seed 5. -/
theorem constant_column_drift_zero_witness :
    (∀ c ∈ [("y", [(9:ℤ), 9, 9])], c.1 = "y" → ∀ x ∈ c.2, x = 9) ∧
      (0 : ℤ) = 0 :=
  ⟨by decide,
    constant_column_drift_zero (fun m => (m.headD ("", [])).2)
      [("y", [9, 9, 9])] [0, 0, 0] (fun _ p => p.headD 0) 5 "y" 9
      (by decide) 0 (by decide)⟩

/-- Claim C7, counterexample: the source performs no input validation.
On a matrix with 2 rows and a target of length 1 it still makes 2
prediction calls and returns a complete one-entry report, where the
claim requires a ShapeMismatch failure before any prediction call. -/
theorem no_validation_counterexample :
    nRows [("a", [(1:ℤ), 2])] = 2 ∧ ([(5:ℤ)]).length = 1 ∧
      evaluateTrace (fun m => (m.headD ("", [])).2) [("a", [1, 2])] [5]
        (fun t p => if t = p then 0 else 7) 1 = ([("a", 0)], 2) := by
  exact ⟨by decide, by decide, by decide⟩

/-- Claim C7, amended: the evaluation loop performs no shape or emptiness
validation; even when the row count disagrees with the target length or
the matrix is empty it completes the full loop, producing one report
entry per column after one baseline plus one per-feature prediction
call (any failure could only arise inside the external model or
scorer). -/
theorem evaluate_total_without_validation (predict : Predictor)
    (m : DataMatrix) (y : List ℤ) (scorer : Scorer) (seed : Nat)
    (hbad : nRows m ≠ y.length ∨ m = []) :
    (evaluate predict m y scorer seed).length = m.length ∧
      (evaluateTrace predict m y scorer seed).2 = m.length + 1 := by
  refine ⟨?_, evaluateTrace_snd predict m y scorer seed⟩
  simp [evaluate]

/-- Claim C7, witness: the amended statement at a 2-row matrix with a
1-element target. -/
theorem evaluate_total_without_validation_witness :
    (evaluate (fun m => (m.headD ("", [])).2) [("a", [(1:ℤ), 2])] [5]
        (fun t p => if t = p then 0 else 7) 1).length =
      ([("a", [(1:ℤ), 2])]).length ∧
      (evaluateTrace (fun m => (m.headD ("", [])).2) [("a", [(1:ℤ), 2])] [5]
        (fun t p => if t = p then 0 else 7) 1).2 =
      ([("a", [(1:ℤ), 2])]).length + 1 :=
  evaluate_total_without_validation (fun m => (m.headD ("", [])).2)
    [("a", [1, 2])] [5] (fun t p => if t = p then 0 else 7) 1
    (Or.inl (by decide))

/-- Claim C8: one evaluation over a matrix with k columns makes exactly
k + 1 prediction calls — one baseline call plus one per feature — and the
instrumented loop computes the same report as the plain one.  The model
is a pure value in the embedding; the loop only applies it and cannot
mutate or retrain it. -/
theorem evaluate_prediction_calls (predict : Predictor) (m : DataMatrix)
    (y : List ℤ) (scorer : Scorer) (seed : Nat) :
    (evaluateTrace predict m y scorer seed).2 = m.length + 1 ∧
      (evaluateTrace predict m y scorer seed).1 =
        evaluate predict m y scorer seed :=
  ⟨evaluateTrace_snd predict m y scorer seed,
    evaluateTrace_fst predict m y scorer seed⟩

/-- Claim C9: the report holds exactly one drift entry per feature
column — the sequence of report names equals the sequence of column
names, so no column is missing, none is duplicated, and the column order
of the input matrix is preserved. -/
theorem evaluate_report_names (predict : Predictor) (m : DataMatrix)
    (y : List ℤ) (scorer : Scorer) (seed : Nat) :
    (evaluate predict m y scorer seed).map Prod.fst = m.map Prod.fst := by
  simp [evaluate]

/-- Claim C10, counterexample: two feature columns holding identical
value sequences can record different drifts.  With a model reading only
the first column, the matrix with `a = b = [1, 2]` yields drift −1 for
`a` but 0 for `b`, because the shuffled values occupy different column
positions. -/
theorem identical_columns_drift_counterexample :
    evaluate (fun m => (m.headD ("", [])).2) [("a", [1, 2]), ("b", [1, 2])]
        [0, 0] (fun _ p => p.headD 0) 1 = [("a", -1), ("b", 0)] ∧
      ((-1 : ℤ) ≠ 0) := by
  exact ⟨by decide, by decide⟩

/-- Claim C10, amended: within one evaluation every feature is shuffled
with the same fixed seed, so two feature columns holding identical value
sequences receive identical shuffled sequences in their respective
working copies (though their recorded drifts may still differ). -/
theorem identical_columns_same_shuffled (seed : Nat) (m : DataMatrix)
    (f g : String) (cf cg : Col) (hf : (f, cf) ∈ m) (hg : (g, cg) ∈ m)
    (hval : cf = cg) :
    (f, shuffle seed cf) ∈ workingCopy seed m f ∧
      (g, shuffle seed cg) ∈ workingCopy seed m g ∧
      shuffle seed cf = shuffle seed cg := by
  subst hval
  refine ⟨?_, ?_, rfl⟩
  · have hmm := List.mem_map_of_mem
      (fun c => if c.1 = f then (c.1, shuffle seed c.2) else c) hf
    simpa [workingCopy] using hmm
  · have hmm := List.mem_map_of_mem
      (fun c => if c.1 = g then (c.1, shuffle seed c.2) else c) hg
    simpa [workingCopy] using hmm

/-- Claim C10, witness: the two identical columns of a concrete matrix
receive the same shuffled sequence. -/
theorem identical_columns_same_shuffled_witness :
    ("a", shuffle 1 [(1:ℤ), 2]) ∈
        workingCopy 1 [("a", [1, 2]), ("b", [1, 2])] "a" ∧
      ("b", shuffle 1 [(1:ℤ), 2]) ∈
        workingCopy 1 [("a", [1, 2]), ("b", [1, 2])] "b" ∧
      shuffle 1 [(1:ℤ), 2] = shuffle 1 [(1:ℤ), 2] :=
  identical_columns_same_shuffled 1 [("a", [1, 2]), ("b", [1, 2])] "a" "b"
    [1, 2] [1, 2] (by decide) (by decide) rfl

end FeatureShuffling
